import Mathlib

/-!
Verification development for the github-metrics-calculator CLI.

The definitions below are shallow embeddings of the JavaScript source:
the summary statistics computed over pull-request records
(src/commands/summary.js and the user-stats command), the per-PR time
metrics of calculatePRMetrics (src/commands/pr-metrics.js), the AI
co-authorship detector (src/lib/github-client.js), the paginated fetch
loops of the GitHub client, the per-PR processing loop with its
skip-on-failure behaviour, the CSV cell renderers, and the token check
of the GitHubClient constructor.

Timestamps are modelled as integer milliseconds since the epoch and
JavaScript number arithmetic as exact rational arithmetic; toFixed(n)
is modelled as rounding half toward positive infinity at n decimal
places, which is its behaviour on the values involved here.
-/

namespace GHM

/-- Model of JavaScript Number(x.toFixed(2)): round to 2 decimal places,
ties toward positive infinity. -/
def round2 (q : ℚ) : ℚ := (⌊q * 100 + 1 / 2⌋ : ℚ) / 100

/-- Model of JavaScript Number(x.toFixed(1)). -/
def round1 (q : ℚ) : ℚ := (⌊q * 10 + 1 / 2⌋ : ℚ) / 10

/-- Milliseconds in one calendar day, the divisor 1000 * 60 * 60 * 24 used
by the source for day deltas. -/
def msPerDay : ℚ := 86400000

/-- Shape of the prData records pushed onto prDetails in the summary and
user-stats loops (summary.js, user-stats command).  Fields that no
aggregate or claim reads (title, createdAt, url) are omitted. -/
structure PRRecord where
  number : Nat
  state : String
  merged : Bool
  comments : Nat
  changesRequested : Nat
  timeToMerge : Option ℚ
  aiAssisted : Bool
  aiTools : List String
deriving DecidableEq

/-- Source: prDetails.filter(pr => pr.merged). -/
def mergedPRsOf (l : List PRRecord) : List PRRecord :=
  l.filter (fun pr => pr.merged)

/-- Source: prDetails.filter(pr => pr.state === 'open'). -/
def openPRsOf (l : List PRRecord) : List PRRecord :=
  l.filter (fun pr => pr.state == "open")

/-- Source: prDetails.filter(pr => pr.state === 'closed' && !pr.merged). -/
def closedPRsOf (l : List PRRecord) : List PRRecord :=
  l.filter (fun pr => pr.state == "closed" && !pr.merged)

/-- Source: prDetails.reduce((sum, pr) => sum + pr.comments, 0). -/
def totalCommentsOf (l : List PRRecord) : Nat :=
  l.foldl (fun sum pr => sum + pr.comments) 0

/-- Source: prDetails.length > 0
? Number((totalComments / prDetails.length).toFixed(2)) : 0. -/
def avgCommentsPerPR (l : List PRRecord) : ℚ :=
  if l.length > 0 then round2 ((totalCommentsOf l : ℚ) / (l.length : ℚ)) else 0

/-- One update step of the JavaScript object
changesRequestedDistribution[changes] = (changesRequestedDistribution[changes] || 0) + 1,
modelled as an association list keyed by the changes-requested count. -/
def bumpDist (d : List (Nat × Nat)) (k : Nat) : List (Nat × Nat) :=
  match d with
  | [] => [(k, 1)]
  | (k0, c) :: rest =>
    if k0 == k then (k0, c + 1) :: rest else (k0, c) :: bumpDist rest k

/-- Source (summary.js): prDetails.forEach(pr =>
dist[pr.changesRequested] = (dist[pr.changesRequested] || 0) + 1).
Entries appear in first-insertion order; the source stores them in an
object whose numeric keys enumerate in ascending order, which coincides
with insertion order for the inputs considered here. -/
def changesRequestedDistributionOf (l : List PRRecord) : List (Nat × Nat) :=
  l.foldl (fun d pr => bumpDist d pr.changesRequested) []

/-- Lookup dist[k] || 0 in the association-list model. -/
def lookupDist (d : List (Nat × Nat)) (k : Nat) : Nat :=
  match d.find? (fun p => p.1 == k) with
  | some p => p.2
  | none => 0

/-- Source (formatSummaryTable / exportToCSV): totalPRs = summary.totalPRs || 1;
cleanPRs = dist['0'] || 0; cleanPct = ((cleanPRs / totalPRs) * 100).toFixed(1). -/
def cleanPRPercentage (l : List PRRecord) : ℚ :=
  let totalPRs : ℚ := if l.length = 0 then 1 else (l.length : ℚ)
  round1 ((lookupDist (changesRequestedDistributionOf l) 0 : ℚ) / totalPRs * 100)

/-- Convenience record used to build concrete PRRecord inputs. -/
def mkRec (state : String) (merged : Bool) (comments changesRequested : Nat)
    (timeToMerge : Option ℚ) : PRRecord :=
  { number := 0, state := state, merged := merged, comments := comments,
    changesRequested := changesRequested, timeToMerge := timeToMerge,
    aiAssisted := false, aiTools := [] }

lemma totalCommentsOf_eq_sum (l : List PRRecord) :
    totalCommentsOf l = (l.map (fun pr => pr.comments)).sum := by
  have h : ∀ (l : List PRRecord) (a : Nat),
      l.foldl (fun sum pr => sum + pr.comments) a
        = a + (l.map (fun pr => pr.comments)).sum := by
    intro l
    induction l with
    | nil => intro a; simp
    | cons x xs ih =>
      intro a
      simp [List.foldl_cons, ih, Nat.add_assoc]
  simpa [totalCommentsOf] using h l 0

/-- C6: the reported avgCommentsPerPR equals totalComments / totalPRs rounded
to 2 decimal places, where totalComments is the sum of the per-PR comment
counts, and equals 0 when the record list is empty
(summary.js summary, user-stats userStats). -/
theorem c6_avg_comments_per_pr (l : List PRRecord) :
    avgCommentsPerPR l =
      if l.length = 0 then 0
      else round2 (((l.map (fun pr => pr.comments)).sum : ℚ) / (l.length : ℚ)) := by
  by_cases h : l.length = 0
  · simp [avgCommentsPerPR, h]
  · have hpos : l.length > 0 := Nat.pos_of_ne_zero h
    simp [avgCommentsPerPR, h, hpos, totalCommentsOf_eq_sum,
      Nat.cast_list_sum, List.map_map, Function.comp_def]

/-- C1 counterexample: a single processed record whose merged flag is set
while its state is 'open' is counted both by the merged filter and by the
open filter, so the three reported counts sum to 2 while totalPRs is 1. -/
theorem c1_counterexample :
    ¬ ((mergedPRsOf [mkRec "open" true 0 0 none]).length
        + (openPRsOf [mkRec "open" true 0 0 none]).length
        + (closedPRsOf [mkRec "open" true 0 0 none]).length
        = [mkRec "open" true 0 0 none].length) := by
  decide

/-- C1 (amended): for every list of processed PR records in which each
record's state is 'open' or 'closed' and every merged record has state
'closed' (the shape of all data the GitHub API delivers), the reported
counts satisfy mergedPRs + openPRs + closedPRs = totalPRs
(summary.js summary, user-stats userStats). -/
theorem c1_pr_state_partition (l : List PRRecord)
    (h : ∀ pr ∈ l, (pr.state = "open" ∨ pr.state = "closed")
      ∧ (pr.merged = true → pr.state = "closed")) :
    (mergedPRsOf l).length + (openPRsOf l).length + (closedPRsOf l).length
      = l.length := by
  induction l with
  | nil => simp [mergedPRsOf, openPRsOf, closedPRsOf]
  | cons x xs ih =>
    have hx := h x (List.mem_cons_self x xs)
    have hxs : ∀ pr ∈ xs, (pr.state = "open" ∨ pr.state = "closed")
        ∧ (pr.merged = true → pr.state = "closed") := by
      intro pr hpr
      exact h pr (List.mem_cons_of_mem x hpr)
    have ihs := ih hxs
    by_cases hm : x.merged
    · have hcl : x.state = "closed" := hx.2 hm
      simp only [mergedPRsOf, openPRsOf, closedPRsOf, List.filter_cons] at *
      simp [hm, hcl] at *
      omega
    · rcases hx.1 with ho | hc
      · simp only [mergedPRsOf, openPRsOf, closedPRsOf, List.filter_cons] at *
        simp [hm, ho] at *
        omega
      · simp only [mergedPRsOf, openPRsOf, closedPRsOf, List.filter_cons] at *
        simp [hm, hc] at *
        omega

/-- C1 witness: the partition identity evaluated on a concrete well-formed
record list with one merged, one open and one closed-unmerged record. -/
theorem c1_pr_state_partition_witness :
    (mergedPRsOf [mkRec "closed" true 1 0 (some 1),
        mkRec "open" false 2 1 none, mkRec "closed" false 3 2 none]).length
      + (openPRsOf [mkRec "closed" true 1 0 (some 1),
        mkRec "open" false 2 1 none, mkRec "closed" false 3 2 none]).length
      + (closedPRsOf [mkRec "closed" true 1 0 (some 1),
        mkRec "open" false 2 1 none, mkRec "closed" false 3 2 none]).length
      = [mkRec "closed" true 1 0 (some 1),
        mkRec "open" false 2 1 none, mkRec "closed" false 3 2 none].length :=
  c1_pr_state_partition _ (by decide)

/-- C8: on the record list with changes-requested counts 0, 1, 2 the
distribution object holds one PR at each count and the clean-PR
percentage renders as 33.3 (summary.js formatSummaryTable and exportToCSV). -/
theorem c8_distribution_example :
    changesRequestedDistributionOf
        [mkRec "closed" true 0 0 none, mkRec "closed" true 0 1 none,
          mkRec "closed" true 0 2 none]
      = [(0, 1), (1, 1), (2, 1)]
    ∧ cleanPRPercentage
        [mkRec "closed" true 0 0 none, mkRec "closed" true 0 1 none,
          mkRec "closed" true 0 2 none]
      = 333 / 10 := by
  constructor
  · decide
  · show round1 ((1 : ℚ) / 3 * 100) = 333 / 10
    norm_num [round1]

/-- Fields of the pull request object read by the time computations of
calculatePRMetrics (pr-metrics.js); timestamps are integer milliseconds. -/
structure PRTimes where
  created_at : ℤ
  merged_at : Option ℤ
  closed_at : Option ℤ
deriving DecidableEq

/-- Source: timeToMerge = mergedAt
? (mergedAt - createdAt) / (1000 * 60 * 60 * 24) : null. -/
def timeToMergeRaw (pr : PRTimes) : Option ℚ :=
  match pr.merged_at with
  | some m => some (((m - pr.created_at : ℤ) : ℚ) / msPerDay)
  | none => none

/-- Source: timeToClose = closedAt
? (closedAt - createdAt) / (1000 * 60 * 60 * 24) : null. -/
def timeToCloseRaw (pr : PRTimes) : Option ℚ :=
  match pr.closed_at with
  | some c => some (((c - pr.created_at : ℤ) : ℚ) / msPerDay)
  | none => none

/-- Source: timeToMergeInDays: timeToMerge
? Number(timeToMerge.toFixed(2)) : null.  A JavaScript conditional treats
the number 0 as false, so an exactly-zero delta also yields null. -/
def timeToMergeInDays (pr : PRTimes) : Option ℚ :=
  match timeToMergeRaw pr with
  | some t => if t = 0 then none else some (round2 t)
  | none => none

/-- Source: timeToCloseInDays: timeToClose
? Number(timeToClose.toFixed(2)) : null. -/
def timeToCloseInDays (pr : PRTimes) : Option ℚ :=
  match timeToCloseRaw pr with
  | some t => if t = 0 then none else some (round2 t)
  | none => none

lemma msPerDay_pos : (0 : ℚ) < msPerDay := by norm_num [msPerDay]

lemma round2_nonneg {q : ℚ} (h : 0 ≤ q) : 0 ≤ round2 q := by
  unfold round2
  have h1 : (0 : ℚ) ≤ q * 100 + 1 / 2 := by positivity
  have h2 : (0 : ℤ) ≤ ⌊q * 100 + 1 / 2⌋ := by
    exact Int.le_floor.mpr (by exact_mod_cast h1)
  positivity

/-- C2 counterexample: a PR merged at its exact creation instant has
merged_at present yet timeToMergeInDays is null (the zero delta is falsy),
and a PR whose merged_at precedes created_at yields a negative value. -/
theorem c2_counterexample :
    timeToMergeInDays { created_at := 0, merged_at := some 0, closed_at := none } = none
    ∧ timeToMergeInDays
        { created_at := 86400000, merged_at := some 0, closed_at := none }
      = some (-1) := by
  constructor
  · simp [timeToMergeInDays, timeToMergeRaw]
  · have hne : ((0 - 86400000 : ℤ) : ℚ) / msPerDay ≠ 0 := by
      norm_num [msPerDay]
    simp only [timeToMergeInDays, timeToMergeRaw, hne, if_false]
    norm_num [msPerDay, round2]

/-- C2 (amended): timeToMergeInDays equals the fractional calendar-day
delta from created_at to merged_at rounded to 2 decimals when merged_at is
present and the delta is nonzero; it is null when merged_at is absent or
the delta is exactly zero; it is non-negative whenever created_at is not
after merged_at; and timeToCloseInDays behaves analogously with closed_at
(pr-metrics.js calculatePRMetrics). -/
theorem c2_time_metrics (pr : PRTimes) :
    (pr.merged_at = none → timeToMergeInDays pr = none)
    ∧ (∀ m, pr.merged_at = some m → m = pr.created_at →
        timeToMergeInDays pr = none)
    ∧ (∀ m, pr.merged_at = some m → m ≠ pr.created_at →
        timeToMergeInDays pr
          = some (round2 (((m - pr.created_at : ℤ) : ℚ) / msPerDay)))
    ∧ (∀ m v, pr.merged_at = some m → pr.created_at ≤ m →
        timeToMergeInDays pr = some v → 0 ≤ v)
    ∧ (pr.closed_at = none → timeToCloseInDays pr = none)
    ∧ (∀ c, pr.closed_at = some c → c = pr.created_at →
        timeToCloseInDays pr = none)
    ∧ (∀ c, pr.closed_at = some c → c ≠ pr.created_at →
        timeToCloseInDays pr
          = some (round2 (((c - pr.created_at : ℤ) : ℚ) / msPerDay))) := by
  have hms := msPerDay_pos
  have hzero : ∀ t : ℤ, ((t - pr.created_at : ℤ) : ℚ) / msPerDay = 0 ↔ t = pr.created_at := by
    intro t
    rw [div_eq_zero_iff]
    constructor
    · rintro (h | h)
      · have : (t - pr.created_at : ℤ) = 0 := by exact_mod_cast h
        omega
      · exact absurd h (ne_of_gt hms)
    · intro h
      left
      simp [h]
  have hmid : ∀ m : ℤ, pr.merged_at = some m →
      timeToMergeInDays pr
        = if ((m - pr.created_at : ℤ) : ℚ) / msPerDay = 0 then none
          else some (round2 (((m - pr.created_at : ℤ) : ℚ) / msPerDay)) := by
    intro m hm
    simp only [timeToMergeInDays, timeToMergeRaw, hm]
  have hcid : ∀ c : ℤ, pr.closed_at = some c →
      timeToCloseInDays pr
        = if ((c - pr.created_at : ℤ) : ℚ) / msPerDay = 0 then none
          else some (round2 (((c - pr.created_at : ℤ) : ℚ) / msPerDay)) := by
    intro c hc
    simp only [timeToCloseInDays, timeToCloseRaw, hc]
  refine ⟨?_, ?_, ?_, ?_, ?_, ?_, ?_⟩
  · intro h; simp [timeToMergeInDays, timeToMergeRaw, h]
  · intro m hm heq
    rw [hmid m hm, if_pos ((hzero m).mpr heq)]
  · intro m hm hne
    rw [hmid m hm, if_neg (fun h => hne ((hzero m).mp h))]
  · intro m v hm hle hv
    have hq : (0 : ℚ) ≤ ((m - pr.created_at : ℤ) : ℚ) / msPerDay := by
      apply div_nonneg _ (le_of_lt hms)
      have : (0 : ℤ) ≤ m - pr.created_at := by omega
      exact_mod_cast this
    rw [hmid m hm] at hv
    by_cases hz : ((m - pr.created_at : ℤ) : ℚ) / msPerDay = 0
    · rw [if_pos hz] at hv
      exact absurd hv (by simp)
    · rw [if_neg hz, Option.some.injEq] at hv
      exact hv ▸ round2_nonneg hq
  · intro h; simp [timeToCloseInDays, timeToCloseRaw, h]
  · intro c hc heq
    rw [hcid c hc, if_pos ((hzero c).mpr heq)]
  · intro c hc hne
    rw [hcid c hc, if_neg (fun h => hne ((hzero c).mp h))]

/-- C2 witness: the amended statement applied to a PR created at time 0 and
merged one day later. -/
theorem c2_time_metrics_witness :
    timeToMergeInDays { created_at := 0, merged_at := some 86400000, closed_at := none }
      = some (round2 (((86400000 - 0 : ℤ) : ℚ) / msPerDay)) :=
  (c2_time_metrics
    { created_at := 0, merged_at := some 86400000, closed_at := none }).2.2.1
    86400000 rfl (by decide)

/-- Per-repository aggregate record as initialised in the summary and
user-stats loops (repoMap entries). -/
structure RepoStats where
  repo : String
  totalPRs : Nat
  mergedPRs : Nat
  totalComments : Nat
  changesRequested : Nat
  mergeTimesSum : ℚ
  mergeTimesCount : Nat
deriving DecidableEq

/-- Source (summary.js): the fresh entry
repoMap.set(repoFullName, { repo, totalPRs: 0, ..., mergeTimesCount: 0 }). -/
def initRepoStats (name : String) : RepoStats :=
  { repo := name, totalPRs := 0, mergedPRs := 0, totalComments := 0,
    changesRequested := 0, mergeTimesSum := 0, mergeTimesCount := 0 }

/-- Source (summary.js summary, user-stats userStats): the mutation of the
repoMap entry performed for each processed PR.  The guard if (timeToMerge)
treats both null and the number 0 as false. -/
def updateRepoStats (rs : RepoStats) (pr : PRRecord) : RepoStats :=
  let base : RepoStats :=
    { rs with
      totalPRs := rs.totalPRs + 1,
      mergedPRs := rs.mergedPRs + (if pr.merged then 1 else 0),
      totalComments := rs.totalComments + pr.comments,
      changesRequested := rs.changesRequested + pr.changesRequested }
  match pr.timeToMerge with
  | some t =>
    if t = 0 then base
    else { base with
      mergeTimesSum := base.mergeTimesSum + t,
      mergeTimesCount := base.mergeTimesCount + 1 }
  | none => base

/-- Source (summary.js): timeToMerge = pr.pull_request?.merged_at
? Number(((merged - created) / (1000 * 60 * 60 * 24)).toFixed(2)) : null. -/
def summaryTimeToMerge (created : ℤ) (mergedAt : Option ℤ) : Option ℚ :=
  mergedAt.map (fun m => round2 (((m - created : ℤ) : ℚ) / msPerDay))

/-- C10: a processed PR whose timeToMerge is null or exactly 0 leaves the
repository aggregate's mergeTimesSum and mergeTimesCount unchanged while
totalPRs, mergedPRs, totalComments and changesRequested are still updated;
and in the summary computation any merge within 432000 ms (7.2 minutes) of
creation rounds to exactly 0 (summary.js summary, user-stats userStats). -/
theorem c10_merge_time_frame (rs : RepoStats) (pr : PRRecord)
    (h : pr.timeToMerge = none ∨ pr.timeToMerge = some 0) :
    (updateRepoStats rs pr).mergeTimesSum = rs.mergeTimesSum
    ∧ (updateRepoStats rs pr).mergeTimesCount = rs.mergeTimesCount
    ∧ (updateRepoStats rs pr).totalPRs = rs.totalPRs + 1
    ∧ (updateRepoStats rs pr).mergedPRs
        = rs.mergedPRs + (if pr.merged then 1 else 0)
    ∧ (updateRepoStats rs pr).totalComments = rs.totalComments + pr.comments
    ∧ (updateRepoStats rs pr).changesRequested
        = rs.changesRequested + pr.changesRequested
    ∧ (∀ c m : ℤ, c ≤ m → ((m - c : ℤ) : ℚ) < 432000 →
        summaryTimeToMerge c (some m) = some 0) := by
  have hupd : updateRepoStats rs pr =
      { rs with
        totalPRs := rs.totalPRs + 1,
        mergedPRs := rs.mergedPRs + (if pr.merged then 1 else 0),
        totalComments := rs.totalComments + pr.comments,
        changesRequested := rs.changesRequested + pr.changesRequested } := by
    rcases h with h | h <;> simp [updateRepoStats, h]
  refine ⟨?_, ?_, ?_, ?_, ?_, ?_, ?_⟩
  · rw [hupd]
  · rw [hupd]
  · rw [hupd]
  · rw [hupd]
  · rw [hupd]
  · rw [hupd]
  · intro c m hle hlt
    have hfloor : ⌊((m - c : ℤ) : ℚ) / msPerDay * 100 + 1 / 2⌋ = 0 := by
      rw [Int.floor_eq_zero_iff]
      constructor
      · have h0 : (0 : ℚ) ≤ ((m - c : ℤ) : ℚ) := by
          have : (0 : ℤ) ≤ m - c := by omega
          exact_mod_cast this
        have : (0 : ℚ) ≤ ((m - c : ℤ) : ℚ) / msPerDay * 100 := by
          apply mul_nonneg (div_nonneg h0 (le_of_lt msPerDay_pos))
          norm_num
        linarith
      · have : ((m - c : ℤ) : ℚ) / msPerDay * 100 < 1 / 2 := by
          rw [div_mul_eq_mul_div, div_lt_iff₀ msPerDay_pos]
          have hlt2 : ((m - c : ℤ) : ℚ) * 100 < 43200000 := by linarith
          calc ((m - c : ℤ) : ℚ) * 100 < 43200000 := hlt2
            _ = 1 / 2 * msPerDay := by norm_num [msPerDay]
        linarith
    have hr0 : round2 (((m - c : ℤ) : ℚ) / msPerDay) = 0 := by
      rw [round2, hfloor]
      norm_num
    simp only [summaryTimeToMerge, Option.map_some', hr0]

/-- C10 witness: the frame property evaluated on a concrete aggregate and a
concrete unmerged PR together with a merge 431999 ms after creation. -/
theorem c10_merge_time_frame_witness :
    (updateRepoStats (initRepoStats "o/r") (mkRec "open" false 4 2 none)).mergeTimesSum
      = (initRepoStats "o/r").mergeTimesSum
    ∧ summaryTimeToMerge 0 (some 431999) = some 0 :=
  ⟨(c10_merge_time_frame (initRepoStats "o/r") (mkRec "open" false 4 2 none)
      (Or.inl rfl)).1,
    (c10_merge_time_frame (initRepoStats "o/r") (mkRec "open" false 4 2 none)
      (Or.inl rfl)).2.2.2.2.2.2 0 431999 (by decide) (by norm_num)⟩

/-- Decide whether pat occurs as a contiguous substring of l. -/
def strContains : List Char → List Char → Bool
  | [], pat => pat.isEmpty
  | c :: t, pat => pat.isPrefixOf (c :: t) || strContains t pat

/-- Suffix of l immediately after the first occurrence of pat, if any. -/
def afterOccur : List Char → List Char → Option (List Char)
  | [], pat => if pat.isEmpty then some [] else none
  | c :: t, pat =>
    if pat.isPrefixOf (c :: t) then some ((c :: t).drop pat.length)
    else afterOccur t pat

/-- Semantics of the regular expression a.*b on a single line: an occurrence
of a followed, further right on the same line, by an occurrence of b.  Such
a match exists iff one exists after the first occurrence of a. -/
def lineMatchSeq (line a b : List Char) : Bool :=
  match afterOccur line a with
  | some rest => strContains rest b
  | none => false

/-- Line terminators that the JavaScript dot does not match. -/
def isLineTerm (c : Char) : Bool :=
  c == Char.ofNat 10 || c == Char.ofNat 13
    || c == Char.ofNat 0x2028 || c == Char.ofNat 0x2029

def splitLinesAux : List Char → List Char → List (List Char)
  | [], cur => [cur.reverse]
  | c :: t, cur =>
    if isLineTerm c then cur.reverse :: splitLinesAux t []
    else splitLinesAux t (c :: cur)

/-- Split a character list at line terminators. -/
def splitLines (l : List Char) : List (List Char) := splitLinesAux l []

/-- The two shapes of pattern in the aiPatterns table of
detectAICoAuthorship: a slash-a.*b-slash-i sequence pattern, and an
alternation of bracket-tag literals. -/
inductive AIPattern where
  | seqPat (a b : String)
  | litPat (ws : List String)
deriving DecidableEq

/-- Test one pattern against an (already lowercased) message.  A sequence
pattern must match within one line because the dot does not cross line
terminators; a literal alternation matches anywhere. -/
def testPattern (p : AIPattern) (m : List Char) : Bool :=
  match p with
  | AIPattern.seqPat a b =>
    (splitLines m).any (fun line => lineMatchSeq line a.data b.data)
  | AIPattern.litPat ws => ws.any (fun w => strContains m w.data)

/-- Source (github-client.js detectAICoAuthorship): the aiPatterns table,
each case-insensitive pattern paired with its tool name. -/
def aiPatterns : List (AIPattern × String) :=
  [ (AIPattern.seqPat "co-authored-by:" "claude", "Claude"),
    (AIPattern.seqPat "co-authored-by:" "anthropic", "Claude"),
    (AIPattern.seqPat "co-authored-by:" "copilot", "GitHub Copilot"),
    (AIPattern.seqPat "co-authored-by:" "openai", "OpenAI"),
    (AIPattern.seqPat "co-authored-by:" "chatgpt", "ChatGPT"),
    (AIPattern.seqPat "co-authored-by:" "cursor", "Cursor"),
    (AIPattern.litPat ["[ai]", "[ai-generated]", "[copilot]", "[claude]"],
      "AI (tagged)") ]

/-- Source: if (!detectedTools.includes(tool)) detectedTools.push(tool),
and equally the add method of the JavaScript Set used at PR level. -/
def setAdd (l : List String) (t : String) : List String :=
  if l.contains t then l else l ++ [t]

/-- Return shape of detectAICoAuthorship. -/
structure Detection where
  isAIAssisted : Bool
  aiTools : List String
deriving DecidableEq

/-- Lowercase a message character by character, the effect of the slash-i
flag on the ASCII-only patterns of the table. -/
def lowerChars (commitMessage : String) : List Char :=
  commitMessage.data.map Char.toLower

/-- Source (github-client.js): detectAICoAuthorship.  The slash-i flag is
modelled by matching the lowercased message against the lowercase
patterns. -/
def detectAICoAuthorship (commitMessage : String) : Detection :=
  let m := lowerChars commitMessage
  let detectedTools := aiPatterns.foldl
    (fun acc p => if testPattern p.1 m then setAdd acc p.2 else acc) []
  { isAIAssisted := decide (0 < detectedTools.length), aiTools := detectedTools }

/-- Source (summary.js / user-stats loop body): fold detection over a PR's
commit messages, accumulating aiAssisted and the aiToolsUsed set. -/
def prStep (acc : Bool × List String) (msg : String) : Bool × List String :=
  let d := detectAICoAuthorship msg
  if d.isAIAssisted then (true, d.aiTools.foldl setAdd acc.2) else acc

/-- Source: the whole per-PR AI scan, starting from aiAssisted = false and
an empty aiToolsUsed set; the second component models
Array.from(aiToolsUsed) in insertion order. -/
def prAIScan (msgs : List String) : Bool × List String :=
  msgs.foldl prStep (false, [])

lemma setAdd_nodup {l : List String} (h : l.Nodup) (t : String) :
    (setAdd l t).Nodup := by
  unfold setAdd
  split
  · exact h
  · next hc =>
    have hmem : t ∉ l := by simpa using hc
    simp [List.nodup_append, h, hmem]

lemma foldl_setAdd_nodup (ts : List String) :
    ∀ acc : List String, acc.Nodup → (ts.foldl setAdd acc).Nodup := by
  induction ts with
  | nil => intro acc h; simpa using h
  | cons t ts ih =>
    intro acc h
    simpa using ih _ (setAdd_nodup h t)

lemma detect_fold_nodup (ps : List (AIPattern × String)) (m : List Char) :
    ∀ acc : List String, acc.Nodup →
      (ps.foldl (fun acc p => if testPattern p.1 m then setAdd acc p.2 else acc)
        acc).Nodup := by
  induction ps with
  | nil => intro acc h; simpa using h
  | cons p ps ih =>
    intro acc h
    simp only [List.foldl_cons]
    by_cases hp : testPattern p.1 m
    · simpa [hp] using ih _ (setAdd_nodup h p.2)
    · simpa [hp] using ih _ h

lemma prAIScan_fst_fold (msgs : List String) :
    ∀ acc : Bool × List String,
      (msgs.foldl prStep acc).1
        = (acc.1 || msgs.any (fun m => (detectAICoAuthorship m).isAIAssisted)) := by
  induction msgs with
  | nil => intro acc; simp
  | cons m ms ih =>
    intro acc
    simp only [List.foldl_cons, List.any_cons]
    by_cases hp : (detectAICoAuthorship m).isAIAssisted
    · simp only [prStep, hp, if_true]
      rw [ih]
      simp [hp]
    · simp only [prStep, hp, Bool.false_eq_true, if_false]
      rw [ih]
      simp [hp]

lemma prAIScan_snd_nodup_fold (msgs : List String) :
    ∀ acc : Bool × List String, acc.2.Nodup → (msgs.foldl prStep acc).2.Nodup := by
  induction msgs with
  | nil => intro acc h; simpa using h
  | cons m ms ih =>
    intro acc h
    simp only [List.foldl_cons]
    by_cases hp : (detectAICoAuthorship m).isAIAssisted
    · exact ih _ (by simpa [prStep, hp] using
        foldl_setAdd_nodup (detectAICoAuthorship m).aiTools acc.2 h)
    · exact ih _ (by simpa [prStep, hp] using h)

/-- C3: detectAICoAuthorship returns the same result on any two messages
with the same lowercasing (the slash-i flag), its aiTools list has no
duplicate tool names, and isAIAssisted holds iff aiTools is non-empty; at
PR level the scan flags a PR iff some commit message is detected, and the
PR-level tool list is duplicate-free (github-client.js
detectAICoAuthorship, summary.js / user-stats loop bodies). -/
theorem c3_ai_detection :
    (∀ m mv : String, lowerChars m = lowerChars mv →
      detectAICoAuthorship m = detectAICoAuthorship mv)
    ∧ (∀ m : String, (detectAICoAuthorship m).aiTools.Nodup)
    ∧ (∀ m : String, (detectAICoAuthorship m).isAIAssisted = true
        ↔ (detectAICoAuthorship m).aiTools ≠ [])
    ∧ (∀ msgs : List String, (prAIScan msgs).1 = true
        ↔ ∃ msg ∈ msgs, (detectAICoAuthorship msg).isAIAssisted = true)
    ∧ (∀ msgs : List String, (prAIScan msgs).2.Nodup) := by
  refine ⟨?_, ?_, ?_, ?_, ?_⟩
  · intro m mv h
    simp only [detectAICoAuthorship]
    rw [h]
  · intro m
    exact detect_fold_nodup aiPatterns (lowerChars m) [] List.nodup_nil
  · intro m
    simp only [detectAICoAuthorship]
    simp [List.length_pos]
  · intro msgs
    unfold prAIScan
    rw [prAIScan_fst_fold msgs (false, [])]
    simp [List.any_eq_true]
  · intro msgs
    exact prAIScan_snd_nodup_fold msgs (false, []) List.nodup_nil

/-- C3 witness: case-insensitivity applied to a concrete trailer and its
uppercase variant, plus a concrete PR-level scan. -/
theorem c3_ai_detection_witness :
    detectAICoAuthorship "Co-Authored-By: CLAUDE <bot@example.com>"
      = detectAICoAuthorship "co-authored-by: claude <bot@example.com>"
    ∧ ((prAIScan ["fix typo", "update [AI] docs"]).1 = true
        ↔ ∃ msg ∈ ["fix typo", "update [AI] docs"],
            (detectAICoAuthorship msg).isAIAssisted = true) :=
  ⟨c3_ai_detection.1 _ _ (by decide),
    c3_ai_detection.2.2.2.1 ["fix typo", "update [AI] docs"]⟩

/-- Generic capped pagination loop of the GitHub client: fetch a page, push
its items, continue while the page had exactly 100 items and the page cap
was not yet reached.  The fuel argument is the number of iterations the cap
still allows. -/
def pageCapLoop {α : Type} (server : Nat → List α) : Nat → Nat → List α
  | _, 0 => []
  | page, fuel + 1 =>
    let data := server page
    data ++ (if data.length = 100 then pageCapLoop server (page + 1) fuel else [])

/-- Source: fetchUserCommits, while (hasMore && page <= 10). -/
def fetchUserCommits {α : Type} (server : Nat → List α) : List α :=
  pageCapLoop server 1 10

/-- Source: fetchUserPRsAcrossRepos, while (hasMore && page <= 10). -/
def fetchUserPRsAcrossRepos {α : Type} (server : Nat → List α) : List α :=
  pageCapLoop server 1 10

/-- Source: fetchUserIssuesAcrossRepos, while (hasMore && page <= 10). -/
def fetchUserIssuesAcrossRepos {α : Type} (server : Nat → List α) : List α :=
  pageCapLoop server 1 10

/-- Source: fetchUserEvents, while (hasMore && page <= 3). -/
def fetchUserEvents {α : Type} (server : Nat → List α) : List α :=
  pageCapLoop server 1 3

/-- Uncapped pagination loop of fetchUserPRs and fetchRepoPRs: while
(hasMore) with no page cap, pushing the client-side filtered page each
round.  The result is none when the while loop has not terminated within
fuel iterations. -/
def pageLoopFuel {α : Type} (server : Nat → List α) (keep : α → Bool) :
    Nat → Nat → Option (List α)
  | _, 0 => none
  | page, fuel + 1 =>
    let data := server page
    let kept := data.filter keep
    if data.length = 100 then
      (pageLoopFuel server keep (page + 1) fuel).map (fun rest => kept ++ rest)
    else some kept

/-- Source: fetchUserPRs (github-client.js lines 23-55), its while loop has
no page cap; keep is the username and date filter. -/
def fetchUserPRs {α : Type} (server : Nat → List α) (keep : α → Bool)
    (fuel : Nat) : Option (List α) :=
  pageLoopFuel server keep 1 fuel

/-- Source: fetchRepoPRs (github-client.js lines 330-361), its while loop
has no page cap; keep is the date filter. -/
def fetchRepoPRs {α : Type} (server : Nat → List α) (keep : α → Bool)
    (fuel : Nat) : Option (List α) :=
  pageLoopFuel server keep 1 fuel

/-- Server that answers eleven full pages before a short page. -/
def fullPagesServer : Nat → List Unit :=
  fun p => if p ≤ 11 then List.replicate 100 () else [()]

set_option maxRecDepth 8192 in
/-- C4 counterexample: against a server with eleven full pages, fetchUserPRs
returns 1101 items, exceeding the claimed 1000-item bound, and is still
looping after 11 pages, so no 10-page hard cap exists in it (and likewise
in fetchRepoPRs, which shares the loop). -/
theorem c4_counterexample :
    (fetchUserPRs fullPagesServer (fun _ => true) 12).map List.length = some 1101
    ∧ fetchRepoPRs fullPagesServer (fun _ => true) 11 = none := by
  constructor
  · decide
  · decide

lemma pageCapLoop_length_le {α : Type} (server : Nat → List α)
    (hs : ∀ p, (server p).length ≤ 100) :
    ∀ (fuel page : Nat), (pageCapLoop server page fuel).length ≤ 100 * fuel := by
  intro fuel
  induction fuel with
  | zero => intro page; simp [pageCapLoop]
  | succ n ih =>
    intro page
    simp only [pageCapLoop, List.length_append]
    by_cases h : (server page).length = 100
    · have h1 := ih (page + 1)
      simp only [h, if_true]
      omega
    · have h1 := hs page
      simp only [h, if_false, List.length_nil]
      omega

lemma pageLoopFuel_isSome {α : Type} (server : Nat → List α) (keep : α → Bool) :
    ∀ (fuel page n : Nat), page ≤ n → n < page + fuel →
      (server n).length ≠ 100 →
      (pageLoopFuel server keep page fuel).isSome = true := by
  intro fuel
  induction fuel with
  | zero => intro page n h1 h2 h3; omega
  | succ f ih =>
    intro page n h1 h2 h3
    simp only [pageLoopFuel]
    by_cases h : (server page).length = 100
    · have hne : n ≠ page := fun e => h3 (e ▸ h)
      have hrec := ih (page + 1) n (by omega) (by omega) h3
      simp [h, hrec]
    · simp [h]

/-- C4 (amended): the search-based fetches and fetchUserCommits request
pages of at most 100 items and stop at a short page or a 10-page cap,
returning at most 1000 items, and fetchUserEvents caps at 3 pages with at
most 300 items; fetchUserPRs and fetchRepoPRs have no page cap and loop
until a short page arrives, so they terminate precisely when the server
eventually returns a page of fewer than 100 items, with no 1000-item bound
(github-client.js). -/
theorem c4_pagination {α : Type} (server : Nat → List α)
    (hs : ∀ p, (server p).length ≤ 100) :
    (fetchUserCommits server).length ≤ 1000
    ∧ (fetchUserPRsAcrossRepos server).length ≤ 1000
    ∧ (fetchUserIssuesAcrossRepos server).length ≤ 1000
    ∧ (fetchUserEvents server).length ≤ 300
    ∧ (∀ (keep : α → Bool) (n fuel : Nat), 1 ≤ n → n ≤ fuel →
        (server n).length ≠ 100 →
        (fetchUserPRs server keep fuel).isSome = true
        ∧ (fetchRepoPRs server keep fuel).isSome = true) := by
  refine ⟨?_, ?_, ?_, ?_, ?_⟩
  · exact pageCapLoop_length_le server hs 10 1
  · exact pageCapLoop_length_le server hs 10 1
  · exact pageCapLoop_length_le server hs 10 1
  · exact pageCapLoop_length_le server hs 3 1
  · intro keep n fuel h1 h2 h3
    exact ⟨pageLoopFuel_isSome server keep fuel 1 n h1 (by omega) h3,
      pageLoopFuel_isSome server keep fuel 1 n h1 (by omega) h3⟩

/-- Server that always answers an empty page. -/
def emptyServer : Nat → List Unit := fun _ => []

/-- C4 witness: the amended bounds evaluated against the empty server. -/
theorem c4_pagination_witness :
    (fetchUserCommits emptyServer).length ≤ 1000
    ∧ (fetchUserPRs emptyServer (fun _ => true) 1).isSome = true :=
  ⟨(c4_pagination emptyServer (fun p => by simp [emptyServer])).1,
    ((c4_pagination emptyServer (fun p => by simp [emptyServer])).2.2.2.2
      (fun _ => true) 1 1 (le_refl 1) (le_refl 1) (by simp [emptyServer])).1⟩

/-- Fields of a search-API pull request item read by the per-PR loop of the
summary and user-stats commands. -/
structure SearchPR where
  number : Nat
  repoFullName : String
  state : String
  created_at : ℤ
  merged_at : Option ℤ
  comments : Nat
deriving DecidableEq

/-- Results of the three per-PR detail requests awaited inside the loop's
try block: review states, issue-comment count and commit messages. -/
structure FetchedDetails where
  reviewStates : List String
  issueCommentCount : Nat
  commitMessages : List String
deriving DecidableEq

/-- Source (summary.js loop body): build the prData record from the search
item and the fetched details. -/
def buildPRRecord (pr : SearchPR) (d : FetchedDetails) : PRRecord :=
  let changesRequested :=
    (d.reviewStates.filter (fun s => s == "CHANGES_REQUESTED")).length
  let totalComments := d.issueCommentCount + pr.comments
  let scan := prAIScan d.commitMessages
  { number := pr.number, state := pr.state, merged := pr.merged_at.isSome,
    comments := totalComments, changesRequested := changesRequested,
    timeToMerge := summaryTimeToMerge pr.created_at pr.merged_at,
    aiAssisted := scan.1, aiTools := scan.2 }

/-- Source (summary.js loop body): create the repoMap entry on first sight
of a repository and mutate it with the processed PR, preserving map
insertion order. -/
def updateRepoMap (m : List (String × RepoStats)) (name : String)
    (pr : PRRecord) : List (String × RepoStats) :=
  match m with
  | [] => [(name, updateRepoStats (initRepoStats name) pr)]
  | (k, v) :: rest =>
    if k == name then (k, updateRepoStats v pr) :: rest
    else (k, v) :: updateRepoMap rest name pr

/-- State threaded through the summary / user-stats per-PR loop: the
prDetails array, the repoMap, and the progress markers written to stdout. -/
structure LoopState where
  prDetails : List PRRecord
  repoMap : List (String × RepoStats)
  markers : List Char
deriving DecidableEq

/-- One iteration of the for-of loop over search PRs in summary and
user-stats.  An outcome of none models the per-PR detail fetch throwing:
the catch block only writes an x marker. -/
def processPR (st : LoopState) (item : SearchPR × Option FetchedDetails) :
    LoopState :=
  match item.2 with
  | none => { st with markers := st.markers ++ ['x'] }
  | some d =>
    let prData := buildPRRecord item.1 d
    { prDetails := st.prDetails ++ [prData],
      repoMap := updateRepoMap st.repoMap item.1.repoFullName prData,
      markers := st.markers ++ ['.'] }

/-- The whole per-PR loop of summary / user-stats. -/
def processAllPRs (items : List (SearchPR × Option FetchedDetails))
    (st : LoopState) : LoopState :=
  items.foldl processPR st

/-- The fragment of calculatePRMetrics pushed per PR that the claims read:
its two time metrics. -/
def calcTimeMetrics (pr : PRTimes) : Option ℚ × Option ℚ :=
  (timeToMergeInDays pr, timeToCloseInDays pr)

/-- One iteration of the pr-metrics per-PR loop (pr-metrics.js prMetrics):
on a fetch failure the catch block only writes an x marker, otherwise the
computed metrics are pushed and a dot is written. -/
def prMetricsStep (st : List (Option ℚ × Option ℚ) × List Char)
    (item : Option PRTimes) : List (Option ℚ × Option ℚ) × List Char :=
  match item with
  | none => (st.1, st.2 ++ ['x'])
  | some d => (st.1 ++ [calcTimeMetrics d], st.2 ++ ['.'])

/-- The whole pr-metrics per-PR loop. -/
def prMetricsLoop (items : List (Option PRTimes))
    (st : List (Option ℚ × Option ℚ) × List Char) :
    List (Option ℚ × Option ℚ) × List Char :=
  items.foldl prMetricsStep st

lemma processAllPRs_state_dep (items : List (SearchPR × Option FetchedDetails)) :
    ∀ s₁ s₂ : LoopState, s₁.prDetails = s₂.prDetails → s₁.repoMap = s₂.repoMap →
      (processAllPRs items s₁).prDetails = (processAllPRs items s₂).prDetails
      ∧ (processAllPRs items s₁).repoMap = (processAllPRs items s₂).repoMap := by
  induction items with
  | nil => intro s₁ s₂ h1 h2; exact ⟨h1, h2⟩
  | cons it its ih =>
    intro s₁ s₂ h1 h2
    simp only [processAllPRs, List.foldl_cons]
    apply ih
    · cases hit : it.2 <;> simp [processPR, hit, h1, h2]
    · cases hit : it.2 <;> simp [processPR, hit, h1, h2]

lemma prMetricsLoop_records_dep (items : List (Option PRTimes)) :
    ∀ s₁ s₂ : List (Option ℚ × Option ℚ) × List Char, s₁.1 = s₂.1 →
      (prMetricsLoop items s₁).1 = (prMetricsLoop items s₂).1 := by
  induction items with
  | nil => intro s₁ s₂ h; exact h
  | cons it its ih =>
    intro s₁ s₂ h
    simp only [prMetricsLoop, List.foldl_cons]
    apply ih
    cases it <;> simp [prMetricsStep, h]

/-- C5: in the per-PR detail loops of summary, user-stats and pr-metrics, a
PR whose detail fetch fails is skipped: the failing iteration appends only
an x marker, leaves prDetails and the repoMap (respectively the metrics
list) untouched, and the loop over a list containing the failed item yields
the same prDetails, repoMap and metrics as the loop without it
(summary.js summary, user-stats userStats, pr-metrics.js prMetrics). -/
theorem c5_skip_on_failure (xs ys : List (SearchPR × Option FetchedDetails))
    (pr : SearchPR) (st : LoopState)
    (ms0 ms1 : List (Option PRTimes))
    (mst : List (Option ℚ × Option ℚ) × List Char) :
    (processAllPRs (xs ++ (pr, none) :: ys) st).prDetails
      = (processAllPRs (xs ++ ys) st).prDetails
    ∧ (processAllPRs (xs ++ (pr, none) :: ys) st).repoMap
      = (processAllPRs (xs ++ ys) st).repoMap
    ∧ (processPR st (pr, none)).markers = st.markers ++ ['x']
    ∧ (processPR st (pr, none)).prDetails = st.prDetails
    ∧ (processPR st (pr, none)).repoMap = st.repoMap
    ∧ (prMetricsLoop (ms0 ++ none :: ms1) mst).1
      = (prMetricsLoop (ms0 ++ ms1) mst).1
    ∧ (prMetricsStep mst none).2 = mst.2 ++ ['x']
    ∧ (prMetricsStep mst none).1 = mst.1 := by
  have hsplit1 : processAllPRs (xs ++ (pr, none) :: ys) st
      = processAllPRs ys (processPR (processAllPRs xs st) (pr, none)) := by
    simp [processAllPRs, List.foldl_append]
  have hsplit2 : processAllPRs (xs ++ ys) st
      = processAllPRs ys (processAllPRs xs st) := by
    simp [processAllPRs, List.foldl_append]
  have hdep := processAllPRs_state_dep ys
    (processPR (processAllPRs xs st) (pr, none)) (processAllPRs xs st)
    (by simp [processPR]) (by simp [processPR])
  have msplit1 : prMetricsLoop (ms0 ++ none :: ms1) mst
      = prMetricsLoop ms1 (prMetricsStep (prMetricsLoop ms0 mst) none) := by
    simp [prMetricsLoop, List.foldl_append]
  have msplit2 : prMetricsLoop (ms0 ++ ms1) mst
      = prMetricsLoop ms1 (prMetricsLoop ms0 mst) := by
    simp [prMetricsLoop, List.foldl_append]
  have mdep := prMetricsLoop_records_dep ms1
    (prMetricsStep (prMetricsLoop ms0 mst) none) (prMetricsLoop ms0 mst)
    (by simp [prMetricsStep])
  refine ⟨?_, ?_, by simp [processPR], by simp [processPR], by simp [processPR],
    ?_, by simp [prMetricsStep], by simp [prMetricsStep]⟩
  · rw [hsplit1, hsplit2]; exact hdep.1
  · rw [hsplit1, hsplit2]; exact hdep.2
  · rw [msplit1, msplit2]; exact mdep

/-- The double-quote character, written by code point to keep character
literals simple. -/
def dquote : Char := Char.ofNat 34

/-- Source (summary.js exportToCSV, the toRow helper): each cell rendered
as a quote, the value with every interior quote doubled, and a closing
quote. -/
def escapeCSVCell (c : List Char) : List Char :=
  dquote :: (c.flatMap (fun ch => if ch = dquote then [dquote, dquote] else [ch]))
    ++ [dquote]

/-- Source (unnamed part_002 exportToCSV): cells rendered as a quote, the
raw value, and a closing quote, with no doubling of interior quotes (only
title fields are pre-escaped there). -/
def rawQuoteCell (c : List Char) : List Char := dquote :: c ++ [dquote]

/-- Standard CSV reading of the interior of a quoted cell: a doubled quote
denotes one quote character, a single quote must be the closing delimiter
at the very end, and anything after a closing quote is malformed. -/
def parseInner : List Char → Option (List Char)
  | [] => none
  | c :: t =>
    if c = dquote then
      match t with
      | [] => some []
      | c2 :: t2 =>
        if c2 = dquote then (parseInner t2).map (fun r => dquote :: r)
        else none
    else (parseInner t).map (fun r => c :: r)

/-- Parse a whole quoted CSV cell back to its value. -/
def parseQuotedCell (s : List Char) : Option (List Char) :=
  match s with
  | c :: t => if c = dquote then parseInner t else none
  | [] => none

/-- C7 counterexample: the part_002 cell renderer applied to the value
a-quote-b emits a row fragment with a lone interior quote, which does not
parse back as a well-formed quoted CSV cell. -/
theorem c7_counterexample :
    parseQuotedCell (rawQuoteCell [Char.ofNat 97, dquote, Char.ofNat 98])
      = none := by
  decide

lemma parseInner_escape (c : List Char) :
    parseInner
        ((c.flatMap (fun ch => if ch = dquote then [dquote, dquote] else [ch]))
          ++ [dquote])
      = some c := by
  induction c with
  | nil => simp [parseInner]
  | cons ch t ih =>
    by_cases h : ch = dquote
    · subst h
      simp only [List.flatMap_cons, if_pos rfl, List.append_assoc, List.cons_append,
        List.nil_append]
      simp [parseInner, ih]
    · simp only [List.flatMap_cons, if_neg h, List.append_assoc, List.cons_append,
        List.nil_append]
      rw [parseInner.eq_def]
      simp [h, ih]

lemma parseInner_noquote (c : List Char) (h : dquote ∉ c) :
    parseInner (c ++ [dquote]) = some c := by
  induction c with
  | nil => decide
  | cons ch t ih =>
    have hch : ch ≠ dquote := fun e => h (e ▸ List.mem_cons_self ch t)
    have ht : dquote ∉ t := fun m => h (List.mem_cons_of_mem ch m)
    rw [List.cons_append, parseInner.eq_def]
    simp [hch, ih ht]

/-- C7 (amended): cells rendered by the toRow helper of summary.js
exportToCSV are wrapped in double quotes with every interior quote doubled
and parse back to the original value for arbitrary values, while the cell
renderer of the part_002 exportToCSV (and the non-title columns of
formatPRMetricsCSV) leaves interior quotes alone and is well-formed only
for values containing no double quote. -/
theorem c7_csv_escaping (c : List Char) :
    parseQuotedCell (escapeCSVCell c) = some c
    ∧ (dquote ∉ c → parseQuotedCell (rawQuoteCell c) = some c) := by
  constructor
  · simp only [parseQuotedCell, escapeCSVCell, List.cons_append, if_pos rfl]
    exact parseInner_escape c
  · intro h
    simp only [parseQuotedCell, rawQuoteCell, List.cons_append, if_pos rfl]
    exact parseInner_noquote c h

/-- C7 witness: the round-trip evaluated on the concrete value
my-quote-org, and the quote-free proviso on the value ok. -/
theorem c7_csv_escaping_witness :
    parseQuotedCell
        (escapeCSVCell [Char.ofNat 109, Char.ofNat 121, dquote,
          Char.ofNat 111, Char.ofNat 114, Char.ofNat 103])
      = some [Char.ofNat 109, Char.ofNat 121, dquote,
          Char.ofNat 111, Char.ofNat 114, Char.ofNat 103]
    ∧ parseQuotedCell (rawQuoteCell [Char.ofNat 111, Char.ofNat 107])
      = some [Char.ofNat 111, Char.ofNat 107] :=
  ⟨(c7_csv_escaping _).1,
    (c7_csv_escaping [Char.ofNat 111, Char.ofNat 107]).2 (by decide)⟩

/-- Source: const token = options.token || process.env.GITHUB_TOKEN, with
the JavaScript or-operator treating the empty string and an absent value
as false. -/
def jsOrToken (flag env : Option String) : Option String :=
  match flag with
  | some s => if s = "" then env else some s
  | none => env

/-- Source (github-client.js constructor): if (!token) throw new Error(...).
Both an absent token and an empty string are falsy. -/
def mkGitHubClient (token : Option String) : Except String Unit :=
  match token with
  | none =>
    Except.error "GitHub token is required. Set GITHUB_TOKEN env var or use --token flag"
  | some s =>
    if s = "" then
      Except.error "GitHub token is required. Set GITHUB_TOKEN env var or use --token flag"
    else Except.ok ()

/-- Outcome of running one command handler: how many API requests were
issued and whether the handler failed. -/
structure CommandOutcome where
  requests : Nat
  errored : Bool
deriving DecidableEq

/-- Shared shape of every command handler (pr-metrics, user-stats,
repo-stats, summary): resolve the token, construct the GitHubClient first
inside the try block, and only then run the fetching body; a constructor
throw is caught having issued no request and the command fails. -/
def runCommand (flag env : Option String) (body : Unit → CommandOutcome) :
    CommandOutcome :=
  match mkGitHubClient (jsOrToken flag env) with
  | Except.error _ => { requests := 0, errored := true }
  | Except.ok _ => body ()

/-- C9: when neither the token flag nor the GITHUB_TOKEN environment
variable supplies a token, the GitHubClient constructor throws and every
command handler fails before issuing any API request
(github-client.js constructor, all command handlers). -/
theorem c9_missing_token (flag env : Option String)
    (hf : flag = none ∨ flag = some "") (he : env = none ∨ env = some "")
    (body : Unit → CommandOutcome) :
    (∃ e, mkGitHubClient (jsOrToken flag env) = Except.error e)
    ∧ runCommand flag env body = { requests := 0, errored := true } := by
  have htok : jsOrToken flag env = none ∨ jsOrToken flag env = some "" := by
    rcases hf with h | h <;> rcases he with h2 | h2 <;> simp [jsOrToken, h, h2]
  have herr : ∃ e, mkGitHubClient (jsOrToken flag env) = Except.error e := by
    rcases htok with h | h <;>
      exact ⟨"GitHub token is required. Set GITHUB_TOKEN env var or use --token flag",
        by simp [mkGitHubClient, h]⟩
  refine ⟨herr, ?_⟩
  rcases herr with ⟨e, he2⟩
  simp [runCommand, he2]

/-- C9 witness: a run with no token flag and an empty environment variable,
whose body would have issued three requests, performs none and fails. -/
theorem c9_missing_token_witness :
    runCommand none (some "") (fun _ => { requests := 3, errored := false })
      = { requests := 0, errored := true } :=
  (c9_missing_token none (some "") (Or.inl rfl) (Or.inr rfl)
    (fun _ => { requests := 3, errored := false })).2

end GHM
